import Mathlib

/-!
Verification development for the go-crud benchmark harness.

The Go sources are embedded shallowly:

* Randomness is modelled by an entropy oracle `RNG`: a list of natural
  draws.  Each call the Go code makes to `rand.Intn(n)` (with `n > 0`)
  consumes one draw `d` and yields the uniform sample `d % n`; this is the
  standard oracle abstraction of a PRNG stream.  `rand.Intn` panics in Go
  when its argument is not positive, which the model reflects with
  `Option` (`none` = runtime panic).
* Pure helpers (`RandomString`, `RandomText`, `GenerateKeys`, the worker
  partition arithmetic of `runner.go`, the scan-query construction of the
  MySQL/Postgres adapters, the control flow of `Runner.Run`) are
  translated function by function.
* JSON documents are represented by the inductive `JVal`; arrays and
  objects are flattened into cons-lists so that all recursion is
  structural and every definition evaluates inside the kernel.
-/

namespace CrudBench

/-- Entropy oracle: the stream of uniform draws the Go PRNG produces. -/
structure RNG where
  draws : List Nat
deriving DecidableEq

/-- Consume one raw draw (models one call into the math/rand source). -/
def RNG.next (g : RNG) : Nat × RNG :=
  (g.draws.headD 0, ⟨g.draws.tail⟩)

/-- Go `rand.Intn n` for a positive bound `n`: one draw, reduced mod `n`. -/
def RNG.intn (g : RNG) (n : Nat) : Nat × RNG :=
  let (d, g1) := g.next
  (d % n, g1)

/-- Go `rand.Intn` on an arbitrary `Int` argument: panics (`none`) when
the argument is not positive, exactly as math/rand does. -/
def RNG.intnChecked (g : RNG) (n : Int) : Option (Nat × RNG) :=
  if n ≤ 0 then none
  else some (g.intn n.toNat)

/-- Character set used by `RandomString` in value.go. -/
def charset : List Char :=
  "abcdefghijklmnopqrstuvwxyzABCDEFGHIJKLMNOPQRSTUVWXYZ0123456789".toList

/-- Characters of `RandomString length`: `length` draws, each indexing
into the 62-character alphanumeric charset. -/
def randomChars : Nat → RNG → List Char × RNG
  | 0, g => ([], g)
  | n + 1, g =>
    let (d, g1) := g.intn charset.length
    let c := charset.getD d 'a'
    let (cs, g2) := randomChars n g1
    (c :: cs, g2)

/-- Go `RandomString(length)` from value.go. -/
def randomString (length : Nat) (g : RNG) : String × RNG :=
  let (cs, g1) := randomChars length g
  (String.mk cs, g1)

/-! ### Key generation (internal/generators/key.go) -/

/-- The concrete key generator chosen by `NewKeyGenerator`. -/
inductive KeyGen where
  | integer
  | strlen (n : Nat)
  | uuid
deriving DecidableEq

/-- Go `NewKeyGenerator(keyType)`: `none` models the unsupported-key-type
error. -/
def newKeyGenerator (keyType : String) : Option KeyGen :=
  if keyType = "integer" then some .integer
  else if keyType = "string26" then some (.strlen 26)
  else if keyType = "string90" then some (.strlen 90)
  else if keyType = "string250" then some (.strlen 250)
  else if keyType = "string506" then some (.strlen 506)
  else if keyType = "uuid" then some .uuid
  else none

/-- Hexadecimal digit for the uuid renderer. -/
def hexChar (n : Nat) : Char :=
  "0123456789abcdef".toList.getD (n % 16) '0'

/-- Hex characters drawn from the entropy stream. -/
def hexChars : Nat → RNG → List Char × RNG
  | 0, g => ([], g)
  | n + 1, g =>
    let (d, g1) := g.next
    let (cs, g2) := hexChars n g1
    (hexChar d :: cs, g2)

/-- Version-4 UUID string (`uuid.New().String()`), rendered from the
entropy oracle: 8-4-4-4-12 hex groups with the version nibble fixed. -/
def uuidNew (g : RNG) : String × RNG :=
  let (a, g1) := hexChars 8 g
  let (b, g2) := hexChars 4 g1
  let (c, g3) := hexChars 3 g2
  let (d, g4) := hexChars 3 g3
  let (e, g5) := hexChars 12 g4
  (String.mk (a ++ '-' :: b ++ '-' :: '4' :: c ++ '-' :: 'a' :: d ++ '-' :: e), g5)

/-- One `Generate(index)` call of the chosen key generator.  The integer
generator stringifies the index; the string and uuid generators ignore
the index and draw fresh randomness. -/
def KeyGen.generate : KeyGen → Nat → RNG → String × RNG
  | .integer, index, g => (toString index, g)
  | .strlen n, _, g => randomString n g
  | .uuid, _, g => uuidNew g

/-- Simultaneous swap of two positions of a list (`indices[i], indices[j]
= indices[j], indices[i]`). -/
def swapList (l : List Nat) (i j : Nat) : List Nat :=
  let vi := l.getD i 0
  let vj := l.getD j 0
  (l.set i vj).set j vi

/-- Fisher-Yates sweep of Go `rand.Shuffle`: performs the swaps for
positions `m, m-1, ..., 1`, drawing `j = Intn(i+1)` at position `i`. -/
def fyAux : Nat → List Nat → RNG → List Nat × RNG
  | 0, l, g => (l, g)
  | k + 1, l, g =>
    let (j, g1) := g.intn (k + 2)
    fyAux k (swapList l (k + 1) j) g1

/-- Go `rand.Shuffle(n, swap)` over an index list of length `n`. -/
def shuffle (l : List Nat) (g : RNG) : List Nat × RNG :=
  fyAux (l.length - 1) l g

/-- Generate the keys for a list of indices, threading the entropy
stream left to right. -/
def genKeyList (gen : KeyGen) : List Nat → RNG → List String × RNG
  | [], g => ([], g)
  | i :: rest, g =>
    let (k, g1) := gen.generate i g
    let (ks, g2) := genKeyList gen rest g1
    (k :: ks, g2)

/-- Go `GenerateKeys(keyType, count, random)` from key.go: sequential
indices `0..count-1`, shuffled when `random`, then rendered by the
type-specific generator.  `none` models the unsupported-key-type error. -/
def generateKeys (keyType : String) (count : Nat) (random : Bool) (g : RNG) :
    Option (List String × RNG) :=
  match newKeyGenerator keyType with
  | none => none
  | some gen =>
    let indices := List.range count
    let (idx, g1) := if random then shuffle indices g else (indices, g)
    some (genKeyList gen idx g1)

/-- Keys generated by two consecutive phases of one run: `runCreate`
calls `GenerateKeys` and `runRead` calls it again on the advanced
entropy stream (its comment reads "Generate keys (same order as
create)").  This models a run whose value template holds no directives,
so that template rendering between the two calls consumes no
randomness. -/
def twoPhaseKeys (keyType : String) (count : Nat) (random : Bool) (g : RNG) :
    Option (List String × List String) :=
  match generateKeys keyType count random g with
  | none => none
  | some (createKeys, g1) =>
    match generateKeys keyType count random g1 with
    | none => none
    | some (readKeys, _) => some (createKeys, readKeys)

/-! ### Worker partitioning (internal/benchmark/runner.go) -/

/-- Go batch size: `samples / (clients*threads)`, bumped to 1 when the
division truncates to 0 (more workers than samples). -/
def batchSize (samples clients threads : Nat) : Nat :=
  let b := samples / (clients * threads)
  if b = 0 then 1 else b

/-- Index range owned by worker `w = clientID*threads + threadID`:
`start := w * batchSize`, `end := min (start + batchSize) samples`, and
the worker exits at once when `start >= samples`. -/
def workerRange (samples clients threads w : Nat) : List Nat :=
  let b := batchSize samples clients threads
  let s := w * b
  let e := min (s + b) samples
  if samples ≤ s then [] else List.range' s (e - s)

/-- All indices processed by the worker pool, in the nested
client/thread launch order of `runCreate`. -/
def assignedIndices (samples clients threads : Nat) : List Nat :=
  (List.range clients).flatMap fun c =>
    (List.range threads).flatMap fun t =>
      workerRange samples clients threads (c * threads + t)

/-! ### Regex matchers of value.go

The Go code tests templates against `regexp.MatchString`, which looks for
a match anywhere in the string.  Each pattern used by value.go is the
literal prefix of a directive followed by digit groups, so leftmost
matching is modelled by scanning every start position for the literal
followed by a greedy digit run. -/

/-- Numeric value of a digit run. -/
def natOfDigits (ds : List Char) : Nat :=
  ds.foldl (fun acc c => acc * 10 + (c.toNat - '0'.toNat)) 0

/-- Match `pat(\d+)` anchored at the head of `cs` (greedy digit run). -/
def tryNumAt (pat cs : List Char) : Option Nat :=
  if pat.isPrefixOf cs then
    let ds := (cs.drop pat.length).takeWhile Char.isDigit
    if ds.isEmpty then none else some (natOfDigits ds)
  else none

/-- Leftmost match of `pat(\d+)` anywhere in the string
(`regexp.MatchString` + `FindStringSubmatch`). -/
def findNum (pat : List Char) : List Char → Option Nat
  | [] => none
  | c :: rest =>
    match tryNumAt pat (c :: rest) with
    | some n => some n
    | none => findNum pat rest

/-- Match `pat(\d+)\.\.(\d+)` anchored at the head of `cs`. -/
def tryRangeAt (pat cs : List Char) : Option (Nat × Nat) :=
  if pat.isPrefixOf cs then
    let after := cs.drop pat.length
    let d1 := after.takeWhile Char.isDigit
    if d1.isEmpty then none
    else
      match after.drop d1.length with
      | '.' :: '.' :: rest2 =>
        let d2 := rest2.takeWhile Char.isDigit
        if d2.isEmpty then none else some (natOfDigits d1, natOfDigits d2)
      | _ => none
  else none

/-- Leftmost match of `pat(\d+)\.\.(\d+)` anywhere in the string. -/
def findRange (pat : List Char) : List Char → Option (Nat × Nat)
  | [] => none
  | c :: rest =>
    match tryRangeAt pat (c :: rest) with
    | some r => some r
    | none => findRange pat rest

/-- Decimal literal `\d+(?:\.\d+)?`, greedy, anchored at the head. -/
def decimalAt (cs : List Char) : Option (List Char) :=
  let d1 := cs.takeWhile Char.isDigit
  if d1.isEmpty then none
  else
    match cs.drop d1.length with
    | '.' :: r =>
      let d2 := r.takeWhile Char.isDigit
      if d2.isEmpty then some d1 else some (d1 ++ '.' :: d2)
    | _ => some d1

/-- Match `float:(\d+(?:\.\d+)?)\.\.(\d+(?:\.\d+)?)` anchored at the
head of `cs`; only matched-ness is needed since rendered floats are
abstracted. -/
def tryFloatRangeAt (pat cs : List Char) : Option Unit :=
  if pat.isPrefixOf cs then
    let after := cs.drop pat.length
    match decimalAt after with
    | none => none
    | some m1 =>
      match after.drop m1.length with
      | '.' :: '.' :: rest2 => (decimalAt rest2).map fun _ => ()
      | _ => none
  else none

/-- Leftmost match of the float range pattern anywhere in the string. -/
def findFloatRange (pat : List Char) : List Char → Option Unit
  | [] => none
  | c :: rest =>
    match tryFloatRangeAt pat (c :: rest) with
    | some r => some r
    | none => findFloatRange pat rest

/-- Match `pat(.+)` anchored at the head of `cs`: the greedy capture is
the whole remainder of the string. -/
def tryTailAt (pat cs : List Char) : Option (List Char) :=
  if pat.isPrefixOf cs then
    let after := cs.drop pat.length
    if after.isEmpty then none else some after
  else none

/-- Leftmost match of `pat(.+)` anywhere in the string. -/
def findTail (pat : List Char) : List Char → Option (List Char)
  | [] => none
  | c :: rest =>
    match tryTailAt pat (c :: rest) with
    | some t => some t
    | none => findTail pat rest

/-- Go `strconv.Atoi` as used in value.go: the error is discarded
(`val, _ := strconv.Atoi(...)`), so a non-integer yields 0. -/
def atoiGo (cs : List Char) : Int :=
  match cs with
  | '-' :: ds =>
    if !ds.isEmpty && ds.all Char.isDigit then -(natOfDigits ds : Int) else 0
  | '+' :: ds =>
    if !ds.isEmpty && ds.all Char.isDigit then (natOfDigits ds : Int) else 0
  | ds =>
    if !ds.isEmpty && ds.all Char.isDigit then (natOfDigits ds : Int) else 0

/-! ### RandomText (value.go) -/

/-- Go `strings.Join(words, " ")`. -/
def goJoin : List String → String
  | [] => ""
  | [w] => w
  | w :: rest => w ++ " " ++ goJoin rest

/-- Loop body of `RandomText`.  The loop advances `cur` by `wl+1 ≥ 3`
on every non-final iteration, so `fuel = length` iterations always
suffice; running out of fuel returns the same accumulator as the
`cur ≥ length` loop exit. -/
def randomTextAux : Nat → Nat → Nat → List String → RNG → List String × RNG
  | 0, _, _, ws, g => (ws, g)
  | fuel + 1, length, cur, ws, g =>
    if cur < length then
      let (d, g1) := g.intn 9
      let wl0 := 2 + d
      let wl := if length < cur + wl0 + 1 then length - cur else wl0
      if wl = 0 then (ws, g1)
      else
        let (w, g2) := randomString wl g1
        randomTextAux fuel length (cur + wl + 1) (ws ++ [w]) g2
    else (ws, g)

/-- Go `RandomText(length)`: words of 2..10 characters accumulated while
`currentLength < length` (each word charged `wordLen + 1` for its
separator), truncating the last word when it would overshoot, then
joined with single spaces. -/
def randomTextGo (length : Nat) (g : RNG) : String × RNG :=
  let (ws, g1) := randomTextAux length length 0 [] g
  (goJoin ws, g1)

/-! ### Value templates (internal/generators/value.go) -/

/-- Parsed JSON value.  Arrays and objects are flattened into cons-lists
so every recursion below is structural.  `floatVal d` abstracts a float
sample by the raw draw `d` that determines it (float arithmetic itself
is outside the model). -/
inductive JVal where
  | str (s : String)
  | num (n : Int)
  | floatVal (raw : Nat)
  | boolean (b : Bool)
  | null
  | arrNil
  | arrCons (head tail : JVal)
  | objNil
  | objCons (key : String) (value tail : JVal)
deriving DecidableEq

/-- Go `ParseValue(template)`: the switch of value.go, cases tested in
source order.  `none` models a runtime panic (`rand.Intn` with a
non-positive argument on an inverted integer range).  `datetime`
renders the current instant, abstracted to a constant. -/
def parseValue (s : String) (g : RNG) : Option (JVal × RNG) :=
  let cs := s.toList
  if s = "int" then
    let (d, g1) := g.next
    some (.num (Int.ofNat (d % 2 ^ 31)), g1)
  else match findRange "int:".toList cs with
  | some (lo, hi) =>
    match g.intnChecked ((hi : Int) - (lo : Int) + 1) with
    | none => none
    | some (d, g1) => some (.num (Int.ofNat (lo + d)), g1)
  | none =>
  if s = "float" then
    let (d, g1) := g.next
    some (.floatVal d, g1)
  else match findFloatRange "float:".toList cs with
  | some _ =>
    let (d, g1) := g.next
    some (.floatVal d, g1)
  | none =>
  if s = "bool" then
    let (d, g1) := g.next
    some (.boolean (d % 2 = 1), g1)
  else if s = "uuid" then
    let (u, g1) := uuidNew g
    some (.str u, g1)
  else if s = "datetime" then
    some (.str "0001-01-01T00:00:00Z", g)
  else match findNum "string:".toList cs with
  | some len =>
    let (w, g1) := randomString len g
    some (.str w, g1)
  | none =>
  match findRange "string:".toList cs with
  | some (lo, hi) =>
    match g.intnChecked ((hi : Int) - (lo : Int) + 1) with
    | none => none
    | some (d, g1) =>
      let (w, g2) := randomString (lo + d) g1
      some (.str w, g2)
  | none =>
  match findNum "text:".toList cs with
  | some len =>
    let (t, g1) := randomTextGo len g
    some (.str t, g1)
  | none =>
  match findRange "text:".toList cs with
  | some (lo, hi) =>
    match g.intnChecked ((hi : Int) - (lo : Int) + 1) with
    | none => none
    | some (d, g1) =>
      let (t, g2) := randomTextGo (lo + d) g1
      some (.str t, g2)
  | none =>
  match findTail "enum:".toList cs with
  | some opts =>
    let options := opts.splitOn ','
    let (j, g1) := g.intn options.length
    some (.str (String.mk (options.getD j [])), g1)
  | none =>
  match findTail "int:".toList cs with
  | some opts =>
    let options := opts.splitOn ','
    let (j, g1) := g.intn options.length
    some (.num (atoiGo (options.getD j [])), g1)
  | none =>
  match findTail "float:".toList cs with
  | some _ =>
    let (d, g1) := g.next
    some (.floatVal d, g1)
  | none => some (.str s, g)

/-- Go `ProcessValue(v)`: rewrites every string leaf through
`ParseValue` and recurses into containers.  The Go function mutates maps
and arrays in place and returns the same object; the pure model returns
the tree that the mutated template holds after the call.  Go map
iteration order is unspecified; the model threads the entropy stream in
the list order of the flattened object. -/
def processValue : JVal → RNG → Option (JVal × RNG)
  | .str s, g => parseValue s g
  | .arrCons h t, g =>
    match processValue h g with
    | none => none
    | some (h', g1) =>
      match processValue t g1 with
      | none => none
      | some (t', g2) => some (.arrCons h' t', g2)
  | .objCons k v t, g =>
    match processValue v g with
    | none => none
    | some (v', g1) =>
      match processValue t g1 with
      | none => none
      | some (t', g2) => some (.objCons k v' t', g2)
  | v, g => some (v, g)

/-- Decides whether a string leaf matches any case of the `ParseValue`
switch other than the verbatim default. -/
def isDirective (s : String) : Bool :=
  let cs := s.toList
  s = "int" || (findRange "int:".toList cs).isSome || s = "float" ||
  (findFloatRange "float:".toList cs).isSome || s = "bool" || s = "uuid" ||
  s = "datetime" || (findNum "string:".toList cs).isSome ||
  (findRange "string:".toList cs).isSome || (findNum "text:".toList cs).isSome ||
  (findRange "text:".toList cs).isSome || (findTail "enum:".toList cs).isSome ||
  (findTail "int:".toList cs).isSome || (findTail "float:".toList cs).isSome

/-- Holds when no string leaf of the tree is a directive. -/
def noDirectives : JVal → Bool
  | .str s => !(isDirective s)
  | .arrCons h t => noDirectives h && noDirectives t
  | .objCons _ v t => noDirectives v && noDirectives t
  | _ => true

/-- Outcome of Go `ProcessTemplate(template)`: `json.Unmarshal` of the
template text (failure → the "invalid JSON template" ConfigError,
modelled by `parsed = none`; the JSON parser never inspects directive
strings) followed immediately by a `ProcessValue` render of the parsed
tree (`none` → runtime panic). -/
inductive TemplateOutcome where
  | configError
  | rendered (v : JVal)
  | panicked
deriving DecidableEq

/-- Go `ProcessTemplate` on an already-JSON-parsed template tree. -/
def processTemplate (parsed : Option JVal) (g : RNG) : TemplateOutcome :=
  match parsed with
  | none => .configError
  | some t =>
    match processValue t g with
    | some (v, _) => .rendered v
    | none => .panicked

/-! ### Runner control flow (internal/benchmark/benchmark.go Run) -/

/-- Which adapter calls succeed in a given run. -/
structure AdapterBehavior where
  initOk : Bool
  createOk : Bool
  readOk : Bool
  updateOk : Bool
  scanOk : Bool
  deleteOk : Bool
deriving DecidableEq

/-- Observable adapter lifecycle events of one `Runner.Run`. -/
inductive RunEvent where
  | initEv
  | cleanupEv
  | createEv
  | readEv
  | updateEv
  | scanEv
  | deleteEv
deriving DecidableEq, BEq

/-- The five phases in their `Run` order, each tagged with whether it
succeeds. -/
def phaseList (b : AdapterBehavior) : List (RunEvent × Bool) :=
  [(.createEv, b.createOk), (.readEv, b.readOk), (.updateEv, b.updateOk),
   (.scanEv, b.scanOk), (.deleteEv, b.deleteOk)]

/-- Sequential phase execution: each phase runs only when all previous
phases succeeded; the first failing phase aborts the rest. -/
def runSeq : List (RunEvent × Bool) → List RunEvent × Bool
  | [] => ([], true)
  | (e, ok) :: rest =>
    if ok then
      let (tr, s) := runSeq rest
      (e :: tr, s)
    else ([e], false)

/-- Go `Runner.Run`: `Initialize`; on error return at once — the
`defer Cleanup` is registered only after a successful `Initialize` —
otherwise run the five phases and let the deferred `Cleanup` run exactly
once on the way out. -/
def runnerRun (b : AdapterBehavior) : List RunEvent × Bool :=
  if b.initOk then
    let (tr, s) := runSeq (phaseList b)
    (RunEvent.initEv :: (tr ++ [RunEvent.cleanupEv]), s)
  else ([RunEvent.initEv], false)

/-! ### Scan (mysql.go Adapter.Scan; the postgres adapter builds the
identical query shape) -/

/-- Go `config.ScanConfig`. -/
structure ScanConfig where
  name : String
  samples : Nat
  projection : String
  start : Int
  limit : Int
  expect : Int
deriving DecidableEq

/-- The SELECT statement the adapter builds: a projection over the bench
table plus optional LIMIT and OFFSET clauses. -/
structure SqlSelect where
  projection : String
  limitClause : Option Int
  offsetClause : Option Int
deriving DecidableEq

/-- Query construction of `Adapter.Scan`: LIMIT is appended only when
`Limit > 0`, and OFFSET only when additionally `Start > 0`.  `none`
models the unsupported-projection error. -/
def buildScanQuery (sc : ScanConfig) : Option SqlSelect :=
  if sc.projection = "ID" ∨ sc.projection = "FULL" ∨ sc.projection = "COUNT" then
    some { projection := sc.projection,
           limitClause := if 0 < sc.limit then some sc.limit else none,
           offsetClause :=
             if 0 < sc.limit ∧ 0 < sc.start then some sc.start else none }
  else none

/-- SQL semantics of the built statement over a table of `n` rows: the
base result has `n` rows for ID/FULL and exactly one aggregate row for
COUNT(*); OFFSET then LIMIT are applied to that result. -/
def sqlRowsReturned (n : Nat) (q : SqlSelect) : Nat :=
  let base := if q.projection = "COUNT" then 1 else n
  let afterOffset := base - ((q.offsetClause.map Int.toNat).getD 0)
  match q.limitClause with
  | none => afterOffset
  | some l => min l.toNat afterOffset

/-- Result of `Adapter.Scan` over a table of `n` rows.  For ID/FULL the
adapter streams the rows and counts them.  For COUNT it scans the single
aggregate row — whose value is COUNT(*) over the whole table — via
`QueryRow(...).Scan`, which errors with ErrNoRows when OFFSET removed
that row. -/
def scanResult (n : Nat) (sc : ScanConfig) : Except String Nat :=
  match buildScanQuery sc with
  | none => .error "unsupported projection type"
  | some q =>
    if sc.projection = "COUNT" then
      if sqlRowsReturned n q = 0 then .error "sql: no rows in result set"
      else .ok n
    else .ok (sqlRowsReturned n q)

/-! ### Update and Delete (mysql.go and the postgres adapter) -/

/-- Rows of the bench table whose primary key equals `key`. -/
def rowsMatching (table : List (String × JVal)) (key : String) : Nat :=
  (table.filter fun r => r.1 == key).length

/-- Driver execution of the adapter's UPDATE statement: the new table
state, the rows-affected count, and the driver error.  A well-formed
statement on a healthy connection succeeds even when it matches zero
rows (`database/sql` reports that only through the discarded
`sql.Result`). -/
def execUpdate (table : List (String × JVal)) (key : String) (v : JVal) :
    List (String × JVal) × Nat × Option String :=
  ((table.map fun r => if r.1 == key then (r.1, v) else r),
   rowsMatching table key, none)

/-- Go `Adapter.Update`: `_, err = a.db.ExecContext(...)` — the
`sql.Result` (hence RowsAffected) is discarded and only `err` is
checked. -/
def adapterUpdate (table : List (String × JVal)) (key : String) (v : JVal) :
    List (String × JVal) × Option String :=
  let (t, _, e) := execUpdate table key v
  (t, e)

/-- Driver execution of the adapter's DELETE statement. -/
def execDelete (table : List (String × JVal)) (key : String) :
    List (String × JVal) × Nat × Option String :=
  ((table.filter fun r => !(r.1 == key)), rowsMatching table key, none)

/-- Go `Adapter.Delete`: discards the `sql.Result`, checks only `err`. -/
def adapterDelete (table : List (String × JVal)) (key : String) :
    List (String × JVal) × Option String :=
  let (t, _, e) := execDelete table key
  (t, e)

/-! ### Helper lemmas -/

theorem count_set_add (l : List Nat) (i a x : Nat) (h : i < l.length) :
    (l.set i a).count x + (if l.getD i 0 = x then 1 else 0) =
      l.count x + (if a = x then 1 else 0) := by
  induction l generalizing i with
  | nil => simp at h
  | cons b t ih =>
    cases i with
    | zero =>
      simp only [List.set_cons_zero, List.getD_cons_zero, List.count_cons,
        beq_iff_eq]
      omega
    | succ i =>
      have hi : i < t.length := by simpa using h
      simp only [List.set_cons_succ, List.getD_cons_succ, List.count_cons,
        beq_iff_eq]
      have := ih i hi
      omega

theorem swapList_perm (l : List Nat) (i j : Nat) (hi : i < l.length)
    (hj : j < l.length) : (swapList l i j).Perm l := by
  rw [List.perm_iff_count]
  intro x
  show ((l.set i (l.getD j 0)).set j (l.getD i 0)).count x = l.count x
  have hj' : j < (l.set i (l.getD j 0)).length := by simpa using hj
  have hC : (l.set i (l.getD j 0)).getD j 0 = l.getD j 0 := by
    by_cases hij : i = j
    · subst hij
      simp [List.getD_eq_getElem?_getD, List.getElem?_set_self hj]
    · simp [List.getD_eq_getElem?_getD, List.getElem?_set_ne hij]
  have hA := count_set_add l i (l.getD j 0) x hi
  have hB := count_set_add (l.set i (l.getD j 0)) j (l.getD i 0) x hj'
  rw [hC] at hB
  omega

theorem fyAux_perm : ∀ (m : Nat) (l : List Nat) (g : RNG), m < l.length →
    ((fyAux m l g).1).Perm l := by
  intro m
  induction m with
  | zero =>
    intro l g _
    simp [fyAux]
  | succ k ih =>
    intro l g h
    have hj : (g.draws.headD 0) % (k + 2) < l.length :=
      Nat.lt_of_lt_of_le (Nat.mod_lt _ (by omega)) (by omega)
    have hlen : (swapList l (k + 1) ((g.draws.headD 0) % (k + 2))).length
        = l.length := by
      unfold swapList
      simp
    have hswap : (swapList l (k + 1) ((g.draws.headD 0) % (k + 2))).Perm l :=
      swapList_perm l (k + 1) _ h hj
    have hrec := ih (swapList l (k + 1) ((g.draws.headD 0) % (k + 2)))
      ⟨g.draws.tail⟩ (by omega)
    simpa [fyAux, RNG.intn, RNG.next] using hrec.trans hswap

theorem shuffle_perm (l : List Nat) (g : RNG) : ((shuffle l g).1).Perm l := by
  unfold shuffle
  cases l with
  | nil => simp [fyAux]
  | cons a t => exact fyAux_perm t.length (a :: t) g (by simp)

theorem genKeyList_fst_length (gen : KeyGen) :
    ∀ (idx : List Nat) (g : RNG), ((genKeyList gen idx g).1).length = idx.length := by
  intro idx
  induction idx with
  | nil => intro g; simp [genKeyList]
  | cons i rest ih =>
    intro g
    simp [genKeyList, ih]

theorem genKeyList_integer : ∀ (idx : List Nat) (g : RNG),
    genKeyList KeyGen.integer idx g = (idx.map toString, g) := by
  intro idx
  induction idx with
  | nil => intro g; simp [genKeyList]
  | cons i rest ih =>
    intro g
    simp [genKeyList, KeyGen.generate, ih]

theorem tryNum_of_tryRange (pat cs : List Char)
    (h : (tryRangeAt pat cs).isSome = true) : (tryNumAt pat cs).isSome = true := by
  unfold tryRangeAt at h
  unfold tryNumAt
  by_cases hp : pat.isPrefixOf cs
  · simp only [if_pos hp] at h ⊢
    by_cases he : ((cs.drop pat.length).takeWhile Char.isDigit).isEmpty
    · simp [he] at h
    · simp [he]
  · simp [hp] at h

theorem findNum_of_findRange (pat : List Char) : ∀ cs : List Char,
    (findRange pat cs).isSome = true → (findNum pat cs).isSome = true := by
  intro cs
  induction cs with
  | nil => simp [findRange, findNum]
  | cons c rest ih =>
    intro h
    unfold findRange at h
    unfold findNum
    cases hr : tryRangeAt pat (c :: rest) with
    | some v =>
      have hn := tryNum_of_tryRange pat (c :: rest) (by rw [hr]; rfl)
      cases hx : tryNumAt pat (c :: rest) with
      | some n => simp
      | none => rw [hx] at hn; simp at hn
    | none =>
      rw [hr] at h
      cases hx : tryNumAt pat (c :: rest) with
      | some n => simp
      | none =>
        simp only [hx]
        exact ih h

theorem flatMap_worker_ranges (n b : Nat) : ∀ W : Nat,
    (List.range W).flatMap (fun w =>
      if n ≤ w * b then []
      else List.range' (w * b) (min (w * b + b) n - w * b)) =
    List.range (min (W * b) n) := by
  intro W
  induction W with
  | zero => simp
  | succ W ih =>
    rw [List.range_succ, List.flatMap_append, ih]
    simp only [List.flatMap_cons, List.flatMap_nil, List.append_nil]
    have h2 : (W + 1) * b = W * b + b := by ring
    by_cases h : n ≤ W * b
    · rw [if_pos h, List.append_nil]
      congr 1
      omega
    · rw [if_neg h]
      have hmin : min (W * b) n = W * b := by omega
      rw [hmin, List.range_eq_range', List.range_eq_range']
      have happ := List.range'_append_1 0 (W * b) (min (W * b + b) n - W * b)
      rw [Nat.zero_add] at happ
      rw [happ]
      congr 1
      omega

theorem double_range_flatMap (f : Nat → List Nat) (t : Nat) : ∀ c : Nat,
    (List.range c).flatMap
      (fun i => (List.range t).flatMap fun j => f (i * t + j)) =
    (List.range (c * t)).flatMap f := by
  intro c
  induction c with
  | zero => simp
  | succ c ih =>
    rw [List.range_succ, List.flatMap_append, ih]
    simp only [List.flatMap_cons, List.flatMap_nil, List.append_nil]
    have h2 : (c + 1) * t = c * t + t := by ring
    rw [h2, List.range_add, List.flatMap_append]
    congr 1
    rw [List.flatMap_map]

theorem randomChars_length : ∀ (n : Nat) (g : RNG),
    ((randomChars n g).1).length = n := by
  intro n
  induction n with
  | zero => intro g; rfl
  | succ k ih =>
    intro g
    show ((randomChars k ⟨g.draws.tail⟩).1).length + 1 = k + 1
    rw [ih]

theorem randomString_length (n : Nat) (g : RNG) :
    ((randomString n g).1).length = n := by
  show ((randomChars n g).1).length = n
  exact randomChars_length n g

theorem randomTextAux_exit (fuel length cur : Nat) (ws : List String) (g : RNG)
    (h : length ≤ cur) : randomTextAux fuel length cur ws g = (ws, g) := by
  cases fuel with
  | zero => rfl
  | succ k => simp [randomTextAux, Nat.not_lt.2 h]

theorem goJoin_length : ∀ ws : List String, ws ≠ [] →
    (goJoin ws).length = (ws.map String.length).sum + ws.length - 1 := by
  intro ws
  induction ws with
  | nil => intro h; exact absurd rfl h
  | cons w rest ih =>
    intro _
    cases rest with
    | nil => simp [goJoin]
    | cons w2 r2 =>
      have hrec := ih (by simp)
      simp only [goJoin] at hrec ⊢
      simp only [String.length_append, List.map_cons, List.sum_cons,
        List.length_cons] at hrec ⊢
      have hsp : (" " : String).length = 1 := rfl
      omega

theorem randomTextAux_spec : ∀ (fuel length cur : Nat) (ws : List String)
    (g : RNG), cur < length → length ≤ cur + 2 * fuel →
    (ws.map String.length).sum + ws.length = cur →
    ((randomTextAux fuel length cur ws g).1 ≠ [] ∧
     (((randomTextAux fuel length cur ws g).1.map String.length).sum +
        (randomTextAux fuel length cur ws g).1.length = length ∨
      ((randomTextAux fuel length cur ws g).1.map String.length).sum +
        (randomTextAux fuel length cur ws g).1.length = length + 1)) := by
  intro fuel
  induction fuel with
  | zero =>
    intro length cur ws g hc hf _
    omega
  | succ f ih =>
    intro length cur ws g hc hf hcost
    by_cases htr : length < cur + (2 + g.draws.headD 0 % 9) + 1
    · have hne0 : ¬(length - cur = 0) := by omega
      have hred : randomTextAux (f + 1) length cur ws g =
          randomTextAux f length (cur + (length - cur) + 1)
            (ws ++ [(randomString (length - cur) ⟨g.draws.tail⟩).1])
            ((randomString (length - cur) ⟨g.draws.tail⟩).2) := by
        simp only [randomTextAux, RNG.intn, RNG.next, if_pos hc]
        rw [if_pos htr, if_neg hne0]
      rw [hred, randomTextAux_exit _ _ _ _ _ (by omega)]
      refine ⟨by simp, Or.inr ?_⟩
      simp only [List.map_append, List.sum_append, List.map_cons, List.map_nil,
        List.sum_cons, List.sum_nil, List.length_append, List.length_cons,
        List.length_nil, randomString_length]
      omega
    · have hne0 : ¬(2 + g.draws.headD 0 % 9 = 0) := by omega
      have hred : randomTextAux (f + 1) length cur ws g =
          randomTextAux f length (cur + (2 + g.draws.headD 0 % 9) + 1)
            (ws ++ [(randomString (2 + g.draws.headD 0 % 9) ⟨g.draws.tail⟩).1])
            ((randomString (2 + g.draws.headD 0 % 9) ⟨g.draws.tail⟩).2) := by
        simp only [randomTextAux, RNG.intn, RNG.next, if_pos hc]
        rw [if_neg htr, if_neg hne0]
      rw [hred]
      by_cases hend : cur + (2 + g.draws.headD 0 % 9) + 1 < length
      · refine ih length _ _ _ hend (by omega) ?_
        simp only [List.map_append, List.sum_append, List.map_cons,
          List.map_nil, List.sum_cons, List.sum_nil, List.length_append,
          List.length_cons, List.length_nil, randomString_length]
        omega
      · rw [randomTextAux_exit _ _ _ _ _ (by omega)]
        refine ⟨by simp, Or.inl ?_⟩
        simp only [List.map_append, List.sum_append, List.map_cons,
          List.map_nil, List.sum_cons, List.sum_nil, List.length_append,
          List.length_cons, List.length_nil, randomString_length]
        omega

theorem parseValue_verbatim (s : String) (g : RNG) (h : isDirective s = false) :
    parseValue s g = some (.str s, g) := by
  unfold isDirective at h
  simp only [Bool.or_eq_false_iff, decide_eq_false_iff_not,
    Option.not_isSome, Option.isNone_iff_eq_none] at h
  obtain ⟨⟨⟨⟨⟨⟨⟨⟨⟨⟨⟨⟨⟨h1, h2⟩, h3⟩, h4⟩, h5⟩, h6⟩, h7⟩, h8⟩, h9⟩, h10⟩,
    h11⟩, h12⟩, h13⟩, h14⟩ := h
  simp only [parseValue, h2, h4, h8, h9, h10, h11, h12, h13, h14,
    if_neg h1, if_neg h3, if_neg h5, if_neg h6, if_neg h7]

/-! ### Claim theorems -/

/-- C1: refuted on the code.  The claim says all four phases visit the
same key set, but the runner calls `GenerateKeys` afresh in every phase
(the read-phase comment even says "same order as create"), and for
string key types `Generate` ignores the index and draws fresh random
strings, so consecutive phases visit entirely different keys.  Here a
run with `keyType=string26`, `N=1`, `random=false` produces create key
"aaa…a" and read key "bbb…b". -/
theorem c1_phase_key_sets_differ :
    twoPhaseKeys "string26" 1 false ⟨List.replicate 26 0 ++ List.replicate 26 1⟩ =
      some (["aaaaaaaaaaaaaaaaaaaaaaaaaa"], ["bbbbbbbbbbbbbbbbbbbbbbbbbb"]) ∧
    (["aaaaaaaaaaaaaaaaaaaaaaaaaa"] : List String) ≠ ["bbbbbbbbbbbbbbbbbbbbbbbbbb"] :=
  ⟨by decide, by decide⟩

/-- C2 counterexample: with `N=10`, `C=2`, `T=2` the batch is
`⌊10/4⌋ = 2` and the final worker owns `[6, 8)` — it does not absorb the
remainder, so indices 8 and 9 are assigned to no worker and the union of
worker ranges is not `[0, 10)`. -/
theorem c2_remainder_never_assigned :
    assignedIndices 10 2 2 ≠ List.range 10 ∧ (8 : Nat) ∉ assignedIndices 10 2 2 :=
  ⟨by decide, by decide⟩

/-- C3 counterexample: for `keyType=string26`, `N=2`, `random=true`, the
generator ignores the shuffled indices and draws fresh random strings,
so an entropy stream of equal draws makes both keys collide: the key set
has cardinality 1, not `N = 2`. -/
theorem c3_string_keys_can_collide :
    ∃ p : List String × RNG,
      generateKeys "string26" 2 true ⟨List.replicate 60 0⟩ = some p ∧
      p.1.length = 2 ∧ p.1.dedup.length = 1 :=
  ⟨_, rfl, by decide, by decide⟩

/-- C4: refuted on the code.  For projection COUNT the adapter appends
LIMIT/OFFSET to `SELECT COUNT(*)`, where they act on the single
aggregate row: with `N=2`, `start=0`, `limit=1` the reported count is 2,
not `min(1, 2) = 1`; with `start=1`, `limit=2` the aggregate row is
offset away and `QueryRow().Scan` fails with ErrNoRows; and for ID with
`limit=0`, `start=3` the OFFSET clause is never added (it is only
emitted inside the `Limit > 0` branch), so the count is `N`, not
`N - start`. -/
theorem c4_scan_count_eval :
    scanResult 2 ⟨"count_all", 0, "COUNT", 0, 1, 0⟩ = .ok 2 ∧
    scanResult 5 ⟨"count_off", 0, "COUNT", 1, 2, 0⟩ =
      .error "sql: no rows in result set" ∧
    scanResult 5 ⟨"id_off", 0, "ID", 3, 0, 0⟩ = .ok 5 :=
  ⟨rfl, rfl, rfl⟩

/-- C5 counterexample: when `Initialize` fails, `Runner.Run` returns
before the `defer Cleanup` is registered, so cleanup is never invoked —
the claim expects it to run. -/
theorem c5_init_error_skips_cleanup :
    (runnerRun ⟨false, true, true, true, true, true⟩).1.count RunEvent.cleanupEv = 0 :=
  by decide

/-- C5 amended: an error during `initialize` aborts the run without
invoking `cleanup`; once `initialize` has succeeded, `cleanup` runs
exactly once, even when a phase fails fatally. -/
theorem c5_cleanup_iff_init_ok (b : AdapterBehavior) :
    (b.initOk = true → (runnerRun b).1.count RunEvent.cleanupEv = 1) ∧
    (b.initOk = false → (runnerRun b).1.count RunEvent.cleanupEv = 0) := by
  obtain ⟨i, c, r, u, s, d⟩ := b
  cases i <;> cases c <;> cases r <;> cases u <;> cases s <;> cases d <;> decide

/-- C5 witness: a run whose read phase fails still cleans up exactly
once. -/
theorem c5_cleanup_iff_init_ok_witness :
    (runnerRun ⟨true, true, false, true, true, true⟩).1.count RunEvent.cleanupEv = 1 :=
  (c5_cleanup_iff_init_ok ⟨true, true, false, true, true, true⟩).1 rfl

/-- C9 counterexample: the template `{"a": "int:5..2"}` is valid JSON,
so `ProcessTemplate` raises no ConfigError; the inverted range is only
hit during rendering, where `rand.Intn(2-5+1)` panics.  The outcome is a
runtime panic, not the parse-time ConfigError the claim requires. -/
theorem c9_inverted_range_not_config_error :
    processTemplate (some (.objCons "a" (.str "int:5..2") .objNil)) ⟨[]⟩ =
      .panicked ∧
    processTemplate (some (.objCons "a" (.str "int:5..2") .objNil)) ⟨[]⟩ ≠
      .configError :=
  ⟨rfl, by decide⟩

/-- C9 amended: a template with an inverted integer range passes the
JSON parse stage (directive strings are never validated at parse time;
ConfigError arises only from malformed JSON) and fails at render time
with a runtime panic from `rand.Intn` on a non-positive argument,
independent of the entropy stream. -/
theorem c9_inverted_range_panics_at_render :
    ∀ g : RNG,
      processTemplate (some (.objCons "a" (.str "int:5..2") .objNil)) g =
        .panicked := by
  intro g
  rfl

/-- C10: for a key absent from the table, the MySQL and PostgreSQL
`Update` and `Delete` execute a statement that affects zero rows; the
driver reports no error for that, and the adapters discard the
`sql.Result`, so both operations return success and leave the table
unchanged. -/
theorem c10_absent_key_update_delete_succeed
    (table : List (String × JVal)) (key : String) (v : JVal)
    (h : key ∉ table.map Prod.fst) :
    adapterUpdate table key v = (table, none) ∧
    (execUpdate table key v).2.1 = 0 ∧
    adapterDelete table key = (table, none) ∧
    (execDelete table key).2.1 = 0 := by
  have hne : ∀ r ∈ table, (r.1 == key) = false := by
    intro r hr
    simp only [beq_eq_false_iff_ne, ne_eq]
    intro hk
    exact h (List.mem_map.2 ⟨r, hr, hk⟩)
  have hmap : (table.map fun r => if r.1 == key then (r.1, v) else r) = table := by
    have := List.map_congr_left (l := table)
      (f := fun r => if r.1 == key then (r.1, v) else r) (g := id)
      (fun r hr => by simp [hne r hr])
    simpa using this
  have hcount : rowsMatching table key = 0 := by
    unfold rowsMatching
    have : table.filter (fun r => r.1 == key) = [] :=
      List.filter_eq_nil_iff.2 (fun r hr => by simp [hne r hr])
    simp [this]
  have hfilter : (table.filter fun r => !(r.1 == key)) = table :=
    List.filter_eq_self.2 (fun r hr => by simp [hne r hr])
  refine ⟨?_, ?_, ?_, ?_⟩
  · show ((table.map fun r => if r.1 == key then (r.1, v) else r),
      (none : Option String)) = (table, none)
    rw [hmap]
  · show rowsMatching table key = 0
    exact hcount
  · show ((table.filter fun r => !(r.1 == key)), (none : Option String)) =
      (table, none)
    rw [hfilter]
  · show rowsMatching table key = 0
    exact hcount

/-- C2 amended: worker `w` owns `[w·b, min(w·b + b, N))` with
`b = max(1, ⌊N/W⌋)`; the ranges are disjoint and their concatenation in
launch order is exactly `[0, min(W·b, N))`.  This covers `[0, N)` iff
`W·b ≥ N` (so when `W ∣ N` or `W ≥ N`); otherwise the last
`N mod W` indices are assigned to no worker — no worker absorbs the
remainder. -/
theorem c2_partition_covers_prefix (samples clients threads : Nat)
    (_hc : 0 < clients) (_ht : 0 < threads) :
    assignedIndices samples clients threads =
      List.range (min ((clients * threads) * batchSize samples clients threads)
        samples) := by
  unfold assignedIndices
  rw [double_range_flatMap (workerRange samples clients threads) threads clients]
  have hfun : workerRange samples clients threads = fun w =>
      if samples ≤ w * batchSize samples clients threads then []
      else List.range' (w * batchSize samples clients threads)
        (min (w * batchSize samples clients threads +
          batchSize samples clients threads) samples -
          w * batchSize samples clients threads) := by
    funext w
    rfl
  rw [hfun, flatMap_worker_ranges samples (batchSize samples clients threads)
    (clients * threads)]

/-- C2 witness: with `N=10`, `C=2`, `T=2` the pool processes exactly
the indices `[0, 8)`. -/
theorem c2_partition_covers_prefix_witness :
    assignedIndices 10 2 2 = List.range (min ((2 * 2) * batchSize 10 2 2) 10) :=
  c2_partition_covers_prefix 10 2 2 (by decide) (by decide)

/-- C3 amended: `GenerateKeys` always yields exactly `N` keys; for
integer keys the sequence is a permutation of the decimal
representations of `0..N-1` when `random` and exactly that sequence in
identity order otherwise.  For string/uuid key types the generator
ignores the index and draws fresh random strings, so the produced set
may have cardinality below `N` (see the counterexample). -/
theorem c3_generate_keys (keyType : String) (count : Nat) (random : Bool)
    (g : RNG) (keys : List String) (g₂ : RNG)
    (h : generateKeys keyType count random g = some (keys, g₂)) :
    keys.length = count ∧
    (keyType = "integer" → random = true →
      keys.Perm ((List.range count).map toString)) ∧
    (keyType = "integer" → random = false →
      keys = (List.range count).map toString) := by
  unfold generateKeys at h
  cases hk : newKeyGenerator keyType with
  | none =>
    rw [hk] at h
    exact absurd h (by simp)
  | some gen =>
    rw [hk] at h
    simp only [Option.some.injEq] at h
    cases random with
    | false =>
      have hkeys : keys = (genKeyList gen (List.range count) g).1 := by
        have h' : genKeyList gen (List.range count) g = (keys, g₂) := h
        rw [h']
      refine ⟨?_, ?_, ?_⟩
      · rw [hkeys, genKeyList_fst_length, List.length_range]
      · intro _ htf
        exact absurd htf (by decide)
      · intro hkt _
        subst hkt
        have hgen : gen = KeyGen.integer := by
          have h0 : newKeyGenerator "integer" = some KeyGen.integer := by decide
          rw [h0] at hk
          exact (Option.some.inj hk).symm
        rw [hkeys, hgen, genKeyList_integer]
    | true =>
      rcases hp : shuffle (List.range count) g with ⟨idx, g1⟩
      rw [hp] at h
      have hkeys : keys = (genKeyList gen idx g1).1 := by
        have h' : genKeyList gen idx g1 = (keys, g₂) := h
        rw [h']
      have hperm : idx.Perm (List.range count) := by
        have := shuffle_perm (List.range count) g
        rw [hp] at this
        exact this
      refine ⟨?_, ?_, ?_⟩
      · rw [hkeys, genKeyList_fst_length]
        rw [hperm.length_eq, List.length_range]
      · intro hkt _
        subst hkt
        have hgen : gen = KeyGen.integer := by
          have h0 : newKeyGenerator "integer" = some KeyGen.integer := by decide
          rw [h0] at hk
          exact (Option.some.inj hk).symm
        rw [hkeys, hgen, genKeyList_integer]
        exact hperm.map toString
      · intro _ hft
        exact absurd hft (by decide)

/-- C3 witness: integer keys, `N=3`, `random=true`: the produced keys
["2", "0", "1"] have length 3 and are a permutation of
["0", "1", "2"]. -/
theorem c3_generate_keys_witness :
    (["2", "0", "1"] : List String).length = 3 ∧
    ("integer" = "integer" → true = true →
      (["2", "0", "1"] : List String).Perm ((List.range 3).map toString)) ∧
    ("integer" = "integer" → true = false →
      (["2", "0", "1"] : List String) = (List.range 3).map toString) :=
  c3_generate_keys "integer" 3 true ⟨[1, 0]⟩ ["2", "0", "1"] ⟨[]⟩ (by decide)

/-- C6 counterexample: rendering `{"a": "int"}` rewrites the template
tree in place — after `ProcessValue` the directive leaf `"int"` has been
replaced by the rendered integer, so the tree the template variable
holds is no longer the directive tree. -/
theorem c6_render_rewrites_template :
    processValue (.objCons "a" (.str "int") .objNil) ⟨[5]⟩ =
      some (.objCons "a" (.num 5) .objNil, ⟨[]⟩) ∧
    JVal.objCons "a" (.num 5) .objNil ≠ .objCons "a" (.str "int") .objNil :=
  ⟨by decide, by decide⟩

/-- C6 amended: `ProcessValue` rewrites directive leaves in place, so a
rendered tree holds values, not directives; on a directive-free tree it
is the identity and consumes no randomness.  Hence in `runCreate`, where
the template is already rendered once by `ProcessTemplate` before the
worker loop, the per-record `ProcessValue` calls pass the pre-rendered
leaves through unchanged: records share that single render instead of
re-drawing independent values. -/
theorem c6_directive_free_fixpoint (t : JVal) (g : RNG)
    (h : noDirectives t = true) : processValue t g = some (t, g) := by
  induction t generalizing g with
  | str s =>
    have hs : isDirective s = false := by
      simpa [noDirectives] using h
    exact parseValue_verbatim s g hs
  | arrCons hd tl ih1 ih2 =>
    have hpair : noDirectives hd = true ∧ noDirectives tl = true := by
      simpa [noDirectives, Bool.and_eq_true] using h
    simp [processValue, ih1 g hpair.1, ih2 g hpair.2]
  | objCons k v tl ih1 ih2 =>
    have hpair : noDirectives v = true ∧ noDirectives tl = true := by
      simpa [noDirectives, Bool.and_eq_true] using h
    simp [processValue, ih1 g hpair.1, ih2 g hpair.2]
  | num n => rfl
  | floatVal r => rfl
  | boolean b => rfl
  | null => rfl
  | arrNil => rfl
  | objNil => rfl

/-- C6 witness: a directive-free document is a fixpoint of rendering. -/
theorem c6_directive_free_fixpoint_witness :
    processValue
      (.objCons "a" (.str "plain") (.objCons "b" (.num 7) .objNil)) ⟨[3]⟩ =
    some (.objCons "a" (.str "plain") (.objCons "b" (.num 7) .objNil), ⟨[3]⟩) :=
  c6_directive_free_fixpoint _ _ (by decide)

/-- C7 counterexample: `RandomText(5)` can return a string of length 4:
when the first drawn word length is 4, the loop charges `4 + 1` for the
word plus a separator that is never emitted, reaches
`currentLength = 5` and stops — the final word is not truncated and the
total length is `N - 1`, not exactly `N`. -/
theorem c7_exact_fit_undershoots :
    (randomTextGo 5 ⟨[2, 0, 0, 0, 0]⟩).1 = "aaaa" ∧
    ("aaaa" : String).length ≠ 5 :=
  ⟨by decide, by decide⟩

/-- C7 amended: for `N > 0` the rendered text has length exactly `N`
(when the last word was truncated) or `N - 1` (when the last word fit
exactly, its counted-but-unemitted separator filling the budget). -/
theorem c7_text_length (n : Nat) (g : RNG) (h : 0 < n) :
    (randomTextGo n g).1.length = n ∨ (randomTextGo n g).1.length = n - 1 := by
  obtain ⟨hne, hsum⟩ := randomTextAux_spec n n 0 [] g h (by omega) (by simp)
  have hlen := goJoin_length _ hne
  show (goJoin ((randomTextAux n n 0 [] g).1)).length = n ∨
    (goJoin ((randomTextAux n n 0 [] g).1)).length = n - 1
  rw [hlen]
  omega

/-- C7 witness: at `N = 5` with the entropy stream `[2, 0, 0, 0, 0]` the
length is 5 or 4. -/
theorem c7_text_length_witness :
    (randomTextGo 5 ⟨[2, 0, 0, 0, 0]⟩).1.length = 5 ∨
    (randomTextGo 5 ⟨[2, 0, 0, 0, 0]⟩).1.length = 5 - 1 :=
  c7_text_length 5 ⟨[2, 0, 0, 0, 0]⟩ (by decide)

/-- C8: refuted on the code.  The `ParseValue` switch tests
`stringRegex` (`string:(\d+)`) before `stringRangeRegex`, and
`MatchString` matches substrings, so `"string:3..7"` is captured by the
plain case with length 3: the rendered string always has length `A`
and lengths up to `B` are never produced.  The range branch is dead
code: every match of `string:(\d+)\.\.(\d+)` is also a match of
`string:(\d+)`. -/
theorem c8_string_range_is_dead :
    parseValue "string:3..7" ⟨[0, 0, 0]⟩ = some (.str "aaa", ⟨[]⟩) ∧
    parseValue "string:3..7" ⟨[61, 61, 61]⟩ = some (.str "999", ⟨[]⟩) ∧
    (∀ s : String, (findRange "string:".toList s.toList).isSome = true →
      (findNum "string:".toList s.toList).isSome = true) :=
  ⟨by decide, by decide, fun s => findNum_of_findRange "string:".toList s.toList⟩

/-- C8 witness: the dead-branch implication at the concrete template
"string:3..7". -/
theorem c8_string_range_is_dead_witness :
    (findNum "string:".toList "string:3..7".toList).isSome = true :=
  c8_string_range_is_dead.2.2 "string:3..7" (by decide)

/-- C10 witness: updating and deleting the absent key "x" on a
one-row table succeeds and changes nothing. -/
theorem c10_absent_key_witness :
    adapterUpdate [("k", JVal.null)] "x" JVal.null = ([("k", JVal.null)], none) ∧
    (execUpdate [("k", JVal.null)] "x" JVal.null).2.1 = 0 ∧
    adapterDelete [("k", JVal.null)] "x" = ([("k", JVal.null)], none) ∧
    (execDelete [("k", JVal.null)] "x").2.1 = 0 :=
  c10_absent_key_update_delete_succeed [("k", JVal.null)] "x" JVal.null (by decide)

end CrudBench
